import Mathlib

/-!
Verification of the haste adapter layers (PyTorch IndRNN wrapper and
TensorFlow GRU wrapper) against their natural-language specification.

Tensors are shallowly embedded as nested lists of rationals:
a vector is `List ℚ`, a matrix is a list of rows, and a rank-3 tensor is a
list of matrices (index order matches the frameworks' time-major layout).
The scalar nonlinearity `tanh` and the random samples drawn by the code are
passed in as explicit function parameters, since their numerics live outside
the repository.
-/

namespace Haste

abbrev Vec := List ℚ
abbrev Mat := List (List ℚ)
abbrev Tens3 := List Mat

/-- Dot product of two vectors (zip-truncating, as list ops are total). -/
def dot (v w : Vec) : ℚ := (List.zipWith (· * ·) v w).sum

/-- Matrix product `a @ b` where `a` is row-major `r × k` and `b` is `k × c`. -/
def matMul (a b : Mat) : Mat :=
  a.map (fun row => (List.range (b.headD []).length).map
    (fun j => dot row (b.map (fun r => r.getD j 0))))

/-- Elementwise matrix addition (as in `Wx[t] + ...`). -/
def matAdd (a b : Mat) : Mat := List.zipWith (List.zipWith (· + ·)) a b

/-- Add a bias vector to every row of a matrix (broadcast over the batch). -/
def matAddVec (m : Mat) (v : Vec) : Mat := m.map (fun row => List.zipWith (· + ·) row v)

/-- Multiply every row of a matrix elementwise by a vector
(broadcast of `recurrent_scale` over the batch dimension). -/
def rowMulVec (m : Mat) (v : Vec) : Mat := m.map (fun row => List.zipWith (· * ·) row v)

/-- Apply a scalar function to every entry of a matrix (e.g. `torch.tanh`). -/
def matMap (f : ℚ → ℚ) (m : Mat) : Mat := m.map (fun row => row.map f)

/-- One step of the IndRNN recurrence body:
`torch.tanh(Wx[t] + h[-1] * recurrent_scale)`. -/
def indStep (f : ℚ → ℚ) (recurrent_scale : Vec) (wxt h : Mat) : Mat :=
  matMap f (matAdd wxt (rowMulVec h recurrent_scale))

/-- Embedding of `IndRNNScript` from `frameworks/pytorch/indrnn.py`:
computes `Wx = input @ kernel + bias`, then runs the Python loop
`h = [h0]; for t in range(time_steps): h.append(tanh(Wx[t] + h[-1]*scale))`
and stacks the result.  `f` stands for `torch.tanh`; the `training` flag is
accepted and unused, exactly as in the source. -/
def IndRNNScript (f : ℚ → ℚ) (training : Bool) (input : Tens3) (h0 kernel : Mat)
    (recurrent_scale bias : Vec) : Tens3 :=
  let Wx := input.map (fun xt => matAddVec (matMul xt kernel) bias)
  Wx.foldl (fun hs wxt => hs ++ [indStep f recurrent_scale wxt (hs.getLastD [])]) [h0]

/-- The two delegates `IndRNN._impl` can hand off to. -/
inductive ImplCall where
  | native
  | script
deriving DecidableEq

/-- Embedding of the dispatch logic of `IndRNN._impl`: the four booleans are
the `is_cuda` flags of `input`, `self.kernel`, `self.recurrent_scale` and
`self.bias`; an `Except.error` is the raised `ValueError`, and an `Except.ok`
records which delegate is invoked. -/
def IndRNN_impl_dispatch (input_cuda kernel_cuda scale_cuda bias_cuda : Bool) :
    Except String ImplCall :=
  let is_cuda := [input_cuda, kernel_cuda, scale_cuda, bias_cuda]
  if is_cuda.any id && !(is_cuda.all id) then
    Except.error "IndRNN tensors should all be CUDA tensors or none should be CUDA tensors"
  else if is_cuda.all id then Except.ok ImplCall.native
  else Except.ok ImplCall.script

/-- Outcome of a gradient function: either it raised before touching the
native library, or it reached the native backward entry point. -/
inductive GradOutcome where
  | raised (msg : String)
  | nativeCall
deriving DecidableEq

/-- Embedding of `IndRNNFunction.backward`: raises a `RuntimeError` when the
saved `ctx.training` flag is false, otherwise calls `LIB.indrnn_backward`. -/
def IndRNNFunction_backward (ctx_training : Bool) : GradOutcome :=
  if !ctx_training then
    GradOutcome.raised "RuntimeError: IndRNN backward can only be called in training mode"
  else
    GradOutcome.nativeCall

/-- Embedding of the registered `HasteGru` gradient function `gru_gradient`:
raises a `ValueError` when the op attribute `training` is false, otherwise
calls `LIB.haste_gru_grad`. -/
def gru_gradient (op_training : Bool) : GradOutcome :=
  if !op_training then
    GradOutcome.raised "ValueError: GRU can only compute gradients if training=True was specified during the forward pass"
  else
    GradOutcome.nativeCall

/-- Embedding of the initial-state selection in `IndRNN.forward`
(`input` is already time-major at this point): with `state=None` a zero
tensor of shape `(input.shape[1], hidden_size)` is built, with a state whose
leading dimension is not 1 a `ValueError` is raised, and otherwise
`h0 = state[0]`. -/
def IndRNN_forward_h0 (hidden_size : Nat) (input : Tens3) (state : Option Tens3) :
    Except String Mat :=
  match state with
  | none => Except.ok (List.replicate (input.headD []).length (List.replicate hidden_size 0))
  | some s =>
    if s.length ≠ 1 then
      Except.error "initial state for IndRNN must have leading dimesion of 1"
    else
      Except.ok (s.getD 0 [])

/-- Permutation `input.permute(1, 0, 2)`: swap the two leading axes of a rank-3 tensor. -/
def permute102 (x : Tens3) : Tens3 := List.transpose x

/-- Embedding of `IndRNN.forward` along the non-CUDA path (so `_impl`
resolves to `IndRNNScript`).  Mirrors the source: optional `batch_first`
permutes, the initial state is selected (possibly raising), the recurrence
runs, then `state` is gathered from `lengths` or taken as `h[-1]`, and the
output is `h[1:]` (permuted back under `batch_first`). -/
def IndRNN_forward (f : ℚ → ℚ) (training batch_first : Bool) (kernel : Mat)
    (recurrent_scale bias : Vec) (hidden_size : Nat) (input : Tens3)
    (state : Option Tens3) (lengths : Option (List Nat)) :
    Except String (Tens3 × Tens3) :=
  let input := if batch_first then permute102 input else input
  match IndRNN_forward_h0 hidden_size input state with
  | Except.error e => Except.error e
  | Except.ok h0 =>
    let h := IndRNNScript f training input h0 kernel recurrent_scale bias
    let st : Tens3 :=
      match lengths with
      | some ls =>
        [(List.range (h.headD []).length).map
          (fun b => (h.getD (ls.getD b 0) []).getD b [])]
      | none => [h.getLastD []]
    let output := h.drop 1
    let output := if batch_first then permute102 output else output
    Except.ok (output, st)

/-- Shapes of the three learnable tensors created by `IndRNN.__init__`
(`torch.empty` contents are unspecified; zeros stand in for them, and
`reset_parameters` overwrites values but never shapes). -/
def IndRNN_init_kernel (input_size hidden_size : Nat) : Mat :=
  List.replicate input_size (List.replicate hidden_size 0)

def IndRNN_init_recurrent_scale (hidden_size : Nat) : Vec :=
  List.replicate hidden_size 0

def IndRNN_init_bias (hidden_size : Nat) : Vec :=
  List.replicate hidden_size 0

/-- Concatenation `tf.concat([a, b], axis=-1)` on matrices with equal row counts. -/
def hcat (a b : Mat) : Mat := List.zipWith (· ++ ·) a b

/-- Concatenation `tf.concat([a, b, c], axis=-1)`. -/
def hcat3 (a b c : Mat) : Mat := hcat a (hcat b c)

/-- The mutable fields of a `GRULayer` object that `build` populates. -/
structure GRULayerState where
  num_units : Nat
  dropout : ℚ
  zoneout : ℚ
  kernel : Mat
  recurrent_kernel : Mat
  bias : Vec
  recurrent_bias : Vec
  fused_kernel : Mat
  fused_bias : Vec
  built : Bool
deriving DecidableEq

/-- Embedding of `GRULayer.__init__`: records the hyper-parameters and leaves every
weight unset (`None` is modelled as the empty tensor) with `built = False`. -/
def GRULayer_init (num_units : Nat) (dropout zoneout : ℚ) : GRULayerState :=
  { num_units := num_units
    dropout := dropout
    zoneout := zoneout
    kernel := []
    recurrent_kernel := []
    bias := []
    recurrent_bias := []
    fused_kernel := []
    fused_bias := []
    built := false }

/-- Embedding of `GRULayer.build`: an early return when already built;
otherwise three kernel blocks, three recurrent blocks and six bias blocks
come back from the initializers (modelled as functions of the call index),
are fused by `tf.concat`, stored as the two variables, and split back with
`tf.split`. -/
def GRULayer_build (s : GRULayerState) (input_size : Nat)
    (kinit rinit : Nat → Mat) (binit rbinit : Nat → Vec) : GRULayerState :=
  if s.built then s
  else
    let kernel_weights := hcat3 (kinit 0) (kinit 1) (kinit 2)
    let recurrent_weights := hcat3 (rinit 0) (rinit 1) (rinit 2)
    let biases := binit 0 ++ binit 1 ++ binit 2
    let recurrent_biases := rbinit 0 ++ rbinit 1 ++ rbinit 2
    let weights := kernel_weights ++ recurrent_weights
    let fused_biases := biases ++ recurrent_biases
    { s with
      fused_kernel := weights
      fused_bias := fused_biases
      kernel := weights.take input_size
      recurrent_kernel := (weights.drop input_size).take s.num_units
      bias := fused_biases.take (fused_biases.length / 2)
      recurrent_bias := fused_biases.drop (fused_biases.length / 2)
      built := true }

/-- One entry of the zoneout mask as computed in `GRULayer.__call__`:
`tf.floor((1.0 - self.zoneout) + uniform_sample)`. -/
def zoneoutEntry (z u : ℚ) : ℚ := (⌊(1 - z) + u⌋ : ℤ)

/-- The random zoneout mask of shape `[time_steps, batch_size, num_units]`;
`u t b n` is the uniform sample drawn at that coordinate. -/
def zoneoutMask (z : ℚ) (u : Nat → Nat → Nat → ℚ) (time_steps batch_size num_units : Nat) :
    Tens3 :=
  (List.range time_steps).map (fun t =>
    (List.range batch_size).map (fun b =>
      (List.range num_units).map (fun n => zoneoutEntry z (u t b n))))

/-- Embedding of `tf.nn.dropout(m, rate)`: each entry is kept (with probability
`1 - rate`, i.e. when its uniform sample is at least `rate`) and rescaled by
`1 / (1 - rate)`, or zeroed.  `u i j` is the sample for entry `(i, j)`. -/
def tf_dropout (rate : ℚ) (u : Nat → Nat → ℚ) (m : Mat) : Mat :=
  List.zipWith (fun i row =>
      List.zipWith (fun j x => if rate ≤ u i j then x / (1 - rate) else 0)
        (List.range row.length) row)
    (List.range m.length) m

/-- The argument record of the `LIB.haste_gru` op call made by
`GRULayer.__call__`. -/
structure HasteGruArgs where
  x : Tens3
  kernel : Mat
  recurrent_kernel : Mat
  bias : Vec
  recurrent_bias : Vec
  zoneout_mask : Tens3
  training : Bool
  zoneout_prob : ℚ

/-- Embedding of the op-call construction in `GRULayer.__call__`:
`time_steps` and `batch_size` are read off the input shape, the zoneout mask
is the empty `[0,0,0]` tensor unless `self.zoneout` is nonzero, DropConnect
is applied to the recurrent kernel via `tf.nn.dropout`, and everything is
handed to `LIB.haste_gru` together with the `training` flag and
`zoneout_prob`. -/
def GRULayer_call_args (s : GRULayerState) (inputs : Tens3) (training : Bool)
    (u_zone : Nat → Nat → Nat → ℚ) (u_drop : Nat → Nat → ℚ) : HasteGruArgs :=
  let time_steps := inputs.length
  let batch_size := (inputs.headD []).length
  let mask : Tens3 :=
    if s.zoneout ≠ 0 then zoneoutMask s.zoneout u_zone time_steps batch_size s.num_units
    else []
  { x := inputs
    kernel := s.kernel
    recurrent_kernel := tf_dropout s.dropout u_drop s.recurrent_kernel
    bias := s.bias
    recurrent_bias := s.recurrent_bias
    zoneout_mask := mask
    training := training
    zoneout_prob := s.zoneout }

/-- The slicing `GRULayer.__call__` applies to the op result:
`state` is gathered from `sequence_length` or taken as `result[-1]`, and the
returned output is `result[1:]`. -/
def GRULayer_call_output (batch_size : Nat) (result : Tens3)
    (sequence_length : Option (List Nat)) : Tens3 × Mat :=
  match sequence_length with
  | some sl =>
    (result.drop 1,
      (List.range batch_size).map (fun b => (result.getD (sl.getD b 0) []).getD b []))
  | none => (result.drop 1, result.getLastD [])

/-- Row/column shape predicate for a matrix, stated positionally so that it
is decidable on concrete inputs. -/
def matShape (r c : Nat) (m : Mat) : Prop :=
  m.length = r ∧ ∀ i < r, (m.getD i []).length = c

/-- Shape predicate for a rank-3 tensor. -/
def tensShape (t r c : Nat) (x : Tens3) : Prop :=
  x.length = t ∧ ∀ i < t, matShape r c (x.getD i [])

instance (r c : Nat) (m : Mat) : Decidable (matShape r c m) := by
  unfold matShape; infer_instance

instance (t r c : Nat) (x : Tens3) : Decidable (tensShape t r c x) := by
  unfold tensShape; infer_instance

deriving instance DecidableEq for Except

/-! ### Generic list helpers -/

theorem getD_zipWith {α β γ : Type} (f : α → β → γ) (a : List α) (b : List β)
    (i : Nat) (d : γ) (da : α) (db : β) (ha : i < a.length) (hb : i < b.length) :
    (List.zipWith f a b).getD i d = f (a.getD i da) (b.getD i db) := by
  have hl : i < (List.zipWith f a b).length := by
    simp only [List.length_zipWith]; omega
  rw [List.getD_eq_getElem _ _ hl, List.getD_eq_getElem _ _ ha, List.getD_eq_getElem _ _ hb]
  exact List.getElem_zipWith

theorem getD_map {α β : Type} (f : α → β) (l : List α) (i : Nat) (d : β) (da : α)
    (h : i < l.length) :
    (l.map f).getD i d = f (l.getD i da) := by
  have hl : i < (l.map f).length := by simpa using h
  rw [List.getD_eq_getElem _ _ hl, List.getD_eq_getElem _ _ h]
  simp

theorem getD_range (n i : Nat) (d : Nat) (h : i < n) : (List.range n).getD i d = i := by
  have hl : i < (List.range n).length := by simpa using h
  rw [List.getD_eq_getElem _ _ hl]
  simp

theorem scanl_cons_tail {α β : Type} (G : α → β → α) (a : α) (l : List β) :
    List.scanl G a l = a :: (List.scanl G a l).tail := by
  cases l <;> simp [List.scanl]

theorem foldl_concat_scanl {α β : Type} (G : α → β → α) (d : α) :
    ∀ (ws : List β) (acc : List α) (a : α), acc.getLast? = some a →
      List.foldl (fun hs w => hs ++ [G (hs.getLastD d) w]) acc ws =
        acc ++ (List.scanl G a ws).tail := by
  intro ws
  induction ws with
  | nil => intro acc a h; simp [List.scanl]
  | cons w ws ih =>
    intro acc a h
    have hacc' : (acc ++ [G a w]).getLast? = some (G a w) := by simp
    calc List.foldl (fun hs w => hs ++ [G (hs.getLastD d) w]) acc (w :: ws)
        = List.foldl (fun hs w => hs ++ [G (hs.getLastD d) w]) (acc ++ [G a w]) ws := by
          simp only [List.foldl_cons, List.getLastD_eq_getLast?, h, Option.getD_some]
      _ = (acc ++ [G a w]) ++ (List.scanl G (G a w) ws).tail := ih _ _ hacc'
      _ = acc ++ (List.scanl G a (w :: ws)).tail := by
          rw [List.scanl_cons, List.singleton_append, List.tail_cons, List.append_assoc,
            List.singleton_append, ← scanl_cons_tail]

theorem scanl_getD_succ {α β : Type} (G : α → β → α) (d : α) (db : β) :
    ∀ (ws : List β) (a : α) (t : Nat), t < ws.length →
      (List.scanl G a ws).getD (t + 1) d =
        G ((List.scanl G a ws).getD t d) (ws.getD t db) := by
  intro ws
  induction ws with
  | nil => intro a t ht; simp at ht
  | cons w ws ih =>
    intro a t ht
    cases t with
    | zero =>
      rw [List.scanl_cons, List.singleton_append, List.getD_cons_succ, List.getD_cons_zero,
        List.getD_cons_zero, scanl_cons_tail G (G a w) ws, List.getD_cons_zero]
    | succ t =>
      simp only [List.scanl_cons, List.singleton_append, List.getD_cons_succ]
      exact ih (G a w) t (by simpa using ht)

theorem scanl_getD_zero {α β : Type} (G : α → β → α) (d : α) (a : α) (ws : List β) :
    (List.scanl G a ws).getD 0 d = a := by
  rw [scanl_cons_tail G a ws, List.getD_cons_zero]

/-! ### Structure of the `IndRNNScript` loop -/

/-- The Python append loop of `IndRNNScript` is `List.scanl` of the step
function over the precomputed `Wx` rows. -/
theorem indrnn_script_eq_scanl (f : ℚ → ℚ) (tr : Bool) (input : Tens3)
    (h0 kernel : Mat) (scale bias : Vec) :
    IndRNNScript f tr input h0 kernel scale bias =
      List.scanl (fun h w => indStep f scale w h) h0
        (input.map (fun xt => matAddVec (matMul xt kernel) bias)) := by
  have h1 := foldl_concat_scanl (fun h w => indStep f scale w h) ([] : Mat)
    (input.map (fun xt => matAddVec (matMul xt kernel) bias)) [h0] h0 (by simp)
  calc IndRNNScript f tr input h0 kernel scale bias
      = [h0] ++ (List.scanl (fun h w => indStep f scale w h) h0
          (input.map (fun xt => matAddVec (matMul xt kernel) bias))).tail := h1
    _ = _ := by rw [List.singleton_append, ← scanl_cons_tail]

end Haste

namespace Haste

/-- C1: `IndRNNScript` is a straightforward sequential scan: it computes
`Wx = input @ kernel + bias` and then, for `t = 0..T-1`,
`h[t+1] = tanh(Wx[t] + h[t] * recurrent_scale)`, returning the stacked
sequence of length `T + 1` whose first element is `h0`. -/
theorem indrnn_script_sequential_scan (f : ℚ → ℚ) (training : Bool) (input : Tens3)
    (h0 kernel : Mat) (recurrent_scale bias : Vec) :
    (IndRNNScript f training input h0 kernel recurrent_scale bias).length = input.length + 1 ∧
    (IndRNNScript f training input h0 kernel recurrent_scale bias).getD 0 [] = h0 ∧
    ∀ t < input.length,
      (IndRNNScript f training input h0 kernel recurrent_scale bias).getD (t + 1) [] =
        matMap f (matAdd
          ((input.map (fun xt => matAddVec (matMul xt kernel) bias)).getD t [])
          (rowMulVec
            ((IndRNNScript f training input h0 kernel recurrent_scale bias).getD t [])
            recurrent_scale)) := by
  rw [indrnn_script_eq_scanl]
  refine ⟨?_, ?_, ?_⟩
  · rw [List.length_scanl, List.length_map]
  · exact scanl_getD_zero _ _ _ _
  · intro t ht
    have h2 := scanl_getD_succ (fun h w => indStep f recurrent_scale w h) ([] : Mat)
      ([] : Mat) (input.map (fun xt => matAddVec (matMul xt kernel) bias)) h0 t
      (by simpa using ht)
    simpa [indStep] using h2

/-- Witness for C1 at a concrete one-step input. -/
theorem indrnn_script_sequential_scan_witness :
    (0 : Nat) < ([[[1]]] : Tens3).length ∧
    (IndRNNScript id true [[[1]]] [[3]] [[2]] [4] [5]).getD 1 [] =
      matMap id (matAdd
        (([[[1]]] : Tens3).map (fun xt => matAddVec (matMul xt [[2]]) [5]) |>.getD 0 [])
        (rowMulVec ((IndRNNScript id true [[[1]]] [[3]] [[2]] [4] [5]).getD 0 []) [4])) :=
  ⟨by decide,
    (indrnn_script_sequential_scan id true [[[1]]] [[3]] [[2]] [4] [5]).2.2 0 (by decide)⟩


/-- C2: `IndRNN._impl` invokes the fallback `IndRNNScript` exactly when none
of (input, kernel, recurrent_scale, bias) is a CUDA tensor, and the native
`IndRNNFunction.apply` exactly when all of them are. -/
theorem impl_dispatch_device_selection :
    ∀ a b c d : Bool,
      (IndRNN_impl_dispatch a b c d = Except.ok ImplCall.script ↔
        a = false ∧ b = false ∧ c = false ∧ d = false) ∧
      (IndRNN_impl_dispatch a b c d = Except.ok ImplCall.native ↔
        a = true ∧ b = true ∧ c = true ∧ d = true) := by decide

/-- C3: `IndRNN._impl` raises its `ValueError` if and only if some but not
all of the four tensors are CUDA tensors, and in that case neither delegate
is invoked. -/
theorem impl_dispatch_device_check :
    ∀ a b c d : Bool,
      (IndRNN_impl_dispatch a b c d =
          Except.error
            "IndRNN tensors should all be CUDA tensors or none should be CUDA tensors" ↔
        ((a || b || c || d) && !(a && b && c && d)) = true) ∧
      (((a || b || c || d) && !(a && b && c && d)) = true →
        (IndRNN_impl_dispatch a b c d).isOk = false) := by decide

/-- Witness for C3 at a mixed-device input. -/
theorem impl_dispatch_device_check_witness :
    (IndRNN_impl_dispatch true false false false).isOk = false :=
  (impl_dispatch_device_check true false false false).2 (by decide)

/-- C4: the training-mode guards: `IndRNNFunction.backward` raises its
`RuntimeError` and the registered `HasteGru` gradient raises its
`ValueError` whenever the forward pass ran with `training=False`, before the
native backward entry point is reached; under `training=True` the error
branches are unreachable and the native backward is invoked. -/
theorem training_mode_guards :
    ∀ t : Bool,
      (IndRNNFunction_backward t = GradOutcome.nativeCall ↔ t = true) ∧
      (gru_gradient t = GradOutcome.nativeCall ↔ t = true) ∧
      (t = false → IndRNNFunction_backward t =
        GradOutcome.raised "RuntimeError: IndRNN backward can only be called in training mode") ∧
      (t = false → gru_gradient t =
        GradOutcome.raised
          "ValueError: GRU can only compute gradients if training=True was specified during the forward pass") := by
  decide

/-- Witness for C4 at `training = false`. -/
theorem training_mode_guards_witness :
    IndRNNFunction_backward false =
      GradOutcome.raised "RuntimeError: IndRNN backward can only be called in training mode" ∧
    gru_gradient false =
      GradOutcome.raised
        "ValueError: GRU can only compute gradients if training=True was specified during the forward pass" :=
  ⟨(training_mode_guards false).2.2.1 rfl, (training_mode_guards false).2.2.2 rfl⟩

/-- C5: in `IndRNN.forward`, a non-`None` initial state raises a
`ValueError` exactly when its leading dimension is not 1; `state=None` uses
a zero tensor of shape `(batch, hidden_size)`, and otherwise `h0 = state[0]`. -/
theorem indrnn_forward_state_check (hidden_size : Nat) (input : Tens3)
    (state : Option Tens3) :
    ((∃ e, IndRNN_forward_h0 hidden_size input state = Except.error e) ↔
      (∃ s, state = some s ∧ s.length ≠ 1)) ∧
    (state = none → IndRNN_forward_h0 hidden_size input state =
      Except.ok (List.replicate (input.headD []).length (List.replicate hidden_size 0))) ∧
    (∀ m : Mat, state = some [m] →
      IndRNN_forward_h0 hidden_size input state = Except.ok m) := by
  refine ⟨⟨?_, ?_⟩, ?_, ?_⟩
  · rintro ⟨e, he⟩
    match state with
    | none => simp [IndRNN_forward_h0] at he
    | some s =>
      refine ⟨s, rfl, fun hlen => ?_⟩
      simp [IndRNN_forward_h0, hlen] at he
  · rintro ⟨s, rfl, hlen⟩
    exact ⟨"initial state for IndRNN must have leading dimesion of 1",
      by simp [IndRNN_forward_h0, hlen]⟩
  · rintro rfl
    simp [IndRNN_forward_h0]
  · rintro m rfl
    simp [IndRNN_forward_h0]

/-- Witness for C5: a one-row state is accepted and unpacked. -/
theorem indrnn_forward_state_check_witness :
    IndRNN_forward_h0 2 [] (some [[[7]]]) = Except.ok [[7]] :=
  (indrnn_forward_state_check 2 [] (some [[[7]]])).2.2 [[7]] rfl


/-- Entry formula for one IndRNN step: entry `(b, i)` of the next hidden
state is `f (Wx[t][b][i] + h[b][i] * scale[i])`. -/
theorem indStep_entry (f : ℚ → ℚ) (scale : Vec) (wxt h : Mat) (b i : Nat)
    (hb1 : b < wxt.length) (hb2 : b < h.length)
    (hi1 : i < (wxt.getD b []).length) (hi2 : i < (h.getD b []).length)
    (hi3 : i < scale.length) :
    ((indStep f scale wxt h).getD b []).getD i 0 =
      f ((wxt.getD b []).getD i 0 + (h.getD b []).getD i 0 * scale.getD i 0) := by
  have hR : (rowMulVec h scale).getD b [] = List.zipWith (· * ·) (h.getD b []) scale :=
    getD_map _ h b [] [] hb2
  have hRlen : b < (rowMulVec h scale).length := by simpa [rowMulVec] using hb2
  have hMlen : b < (matAdd wxt (rowMulVec h scale)).length := by
    simp only [matAdd, List.length_zipWith, rowMulVec, List.length_map, lt_min_iff]
    exact ⟨hb1, hb2⟩
  have hM : (matAdd wxt (rowMulVec h scale)).getD b [] =
      List.zipWith (· + ·) (wxt.getD b []) ((rowMulVec h scale).getD b []) :=
    getD_zipWith _ _ _ b [] [] [] hb1 hRlen
  have h1 : (indStep f scale wxt h).getD b [] =
      ((matAdd wxt (rowMulVec h scale)).getD b []).map f :=
    getD_map _ _ b [] [] hMlen
  rw [h1, hM, hR]
  have hzlen : i < (List.zipWith (· * ·) (h.getD b []) scale).length := by
    simp only [List.length_zipWith, lt_min_iff]; exact ⟨hi2, hi3⟩
  have hslen : i < (List.zipWith (· + ·) (wxt.getD b [])
      (List.zipWith (· * ·) (h.getD b []) scale)).length := by
    simp only [List.length_zipWith, lt_min_iff]; exact ⟨hi1, hi2, hi3⟩
  rw [getD_map f _ i 0 0 hslen,
    getD_zipWith _ _ _ i 0 0 0 hi1 hzlen,
    getD_zipWith _ _ _ i 0 0 0 hi2 hi3]

/-- C6: the recurrent connection is a per-unit scalar: entry `(b, i)` of
the next hidden state equals `f (Wx[b][i] + h[b][i] * scale[i])`, so it
depends on no other unit of the previous state; two previous states that
agree at unit `i` produce the same unit-`i` value. -/
theorem indrnn_per_unit_recurrence (f : ℚ → ℚ) (scale : Vec) (wxt h h' : Mat)
    (b i : Nat) (hb1 : b < wxt.length) (hb2 : b < h.length) (hb3 : b < h'.length)
    (hi1 : i < (wxt.getD b []).length) (hi2 : i < (h.getD b []).length)
    (hi4 : i < (h'.getD b []).length) (hi3 : i < scale.length)
    (hagree : (h.getD b []).getD i 0 = (h'.getD b []).getD i 0) :
    ((indStep f scale wxt h).getD b []).getD i 0 =
      f ((wxt.getD b []).getD i 0 + (h.getD b []).getD i 0 * scale.getD i 0) ∧
    ((indStep f scale wxt h).getD b []).getD i 0 =
      ((indStep f scale wxt h').getD b []).getD i 0 := by
  refine ⟨indStep_entry f scale wxt h b i hb1 hb2 hi1 hi2 hi3, ?_⟩
  rw [indStep_entry f scale wxt h b i hb1 hb2 hi1 hi2 hi3,
    indStep_entry f scale wxt h' b i hb1 hb3 hi1 hi4 hi3, hagree]

/-- Witness for C6: two previous states agreeing at unit 0. -/
theorem indrnn_per_unit_recurrence_witness :
    ((indStep id [2] [[1]] [[3]]).getD 0 []).getD 0 0 =
      id ((([[1]] : Mat).getD 0 []).getD 0 0 +
        (([[3]] : Mat).getD 0 []).getD 0 0 * ([2] : Vec).getD 0 0) ∧
    ((indStep id [2] [[1]] [[3]]).getD 0 []).getD 0 0 =
      ((indStep id [2] [[1]] [[3, 5]]).getD 0 []).getD 0 0 :=
  indrnn_per_unit_recurrence id [2] [[1]] [[3]] [[3, 5]] 0 0 (by decide) (by decide)
    (by decide) (by decide) (by decide) (by decide) (by decide) (by decide)


theorem getD_take {α : Type} (l : List α) (n i : Nat) (d : α) (h : i < n) :
    (l.take n).getD i d = l.getD i d := by
  rcases Nat.lt_or_ge i l.length with hc | hc
  · have h1 : i < (l.take n).length := by simp; omega
    rw [List.getD_eq_getElem _ _ h1, List.getD_eq_getElem _ _ hc]
    simp [List.getElem_take]
  · rw [List.getD_eq_default _ _ (by simp; omega), List.getD_eq_default _ _ (by omega)]

theorem getD_drop {α : Type} (l : List α) (n i : Nat) (d : α) :
    (l.drop n).getD i d = l.getD (n + i) d := by
  rcases Nat.lt_or_ge (n + i) l.length with hc | hc
  · have h1 : i < (l.drop n).length := by simp; omega
    rw [List.getD_eq_getElem _ _ h1, List.getD_eq_getElem _ _ hc]
    simp [List.getElem_drop]
  · rw [List.getD_eq_default _ _ (by simp; omega), List.getD_eq_default _ _ (by omega)]

theorem getD_replicate {α : Type} (n i : Nat) (x d : α) (h : i < n) :
    (List.replicate n x).getD i d = x := by
  rw [List.getD_eq_getElem _ _ (by simpa using h)]
  simp

theorem matShape_replicate (r c : Nat) :
    matShape r c (List.replicate r (List.replicate c (0 : ℚ))) := by
  refine ⟨by simp, fun i hi => ?_⟩
  rw [getD_replicate _ _ _ _ hi]
  simp

theorem matShape_hcat {r c1 c2 : Nat} {a b : Mat}
    (ha : matShape r c1 a) (hb : matShape r c2 b) :
    matShape r (c1 + c2) (hcat a b) := by
  obtain ⟨hal, har⟩ := ha
  obtain ⟨hbl, hbr⟩ := hb
  refine ⟨by simp [hcat, List.length_zipWith, hal, hbl], fun i hi => ?_⟩
  rw [hcat, getD_zipWith _ a b i [] [] [] (by omega) (by omega)]
  rw [List.length_append, har i hi, hbr i hi]

theorem matShape_vcat {r1 r2 c : Nat} {a b : Mat}
    (ha : matShape r1 c a) (hb : matShape r2 c b) :
    matShape (r1 + r2) c (a ++ b) := by
  obtain ⟨hal, har⟩ := ha
  obtain ⟨hbl, hbr⟩ := hb
  refine ⟨by simp [hal, hbl], fun i hi => ?_⟩
  by_cases hcase : i < r1
  · rw [List.getD_append _ _ _ _ (by omega)]
    exact har i hcase
  · rw [List.getD_append_right _ _ _ _ (by omega), hal]
    exact hbr (i - r1) (by omega)

theorem matShape_take {r1 r2 c : Nat} {w : Mat} (hw : matShape (r1 + r2) c w) :
    matShape r1 c (w.take r1) := by
  obtain ⟨hwl, hwr⟩ := hw
  refine ⟨by simp [hwl], fun i hi => ?_⟩
  rw [getD_take _ _ _ _ hi]
  exact hwr i (by omega)

theorem matShape_drop_take {r1 r2 c : Nat} {w : Mat} (hw : matShape (r1 + r2) c w) :
    matShape r2 c ((w.drop r1).take r2) := by
  obtain ⟨hwl, hwr⟩ := hw
  refine ⟨by simp [hwl], fun i hi => ?_⟩
  rw [getD_take _ _ _ _ hi, getD_drop]
  exact hwr (r1 + i) (by omega)

/-- C7: the learnable tensors follow the kernel calling convention:
`IndRNN.__init__` gives `kernel : (input_size, hidden_size)` and
`recurrent_scale`, `bias : (hidden_size)`; `GRULayer.build` fuses the
initializer outputs into `_kernel : (input_size + num_units, 3*num_units)`
and `_bias : (6*num_units)` and splits them back into
`kernel : (input_size, 3*num_units)`, `recurrent_kernel : (num_units,
3*num_units)` and two bias vectors of length `3*num_units`; a second call
to `build` leaves the layer unchanged. -/
theorem learnable_tensor_shapes (input_size hidden_size : Nat) (s : GRULayerState)
    (kinit rinit : Nat → Mat) (binit rbinit : Nat → Vec)
    (hs : s.built = false)
    (hk : ∀ j < 3, matShape input_size s.num_units (kinit j))
    (hr : ∀ j < 3, matShape s.num_units s.num_units (rinit j))
    (hbi : ∀ j < 3, (binit j).length = s.num_units)
    (hrb : ∀ j < 3, (rbinit j).length = s.num_units) :
    matShape input_size hidden_size (IndRNN_init_kernel input_size hidden_size) ∧
    (IndRNN_init_recurrent_scale hidden_size).length = hidden_size ∧
    (IndRNN_init_bias hidden_size).length = hidden_size ∧
    matShape (input_size + s.num_units) (3 * s.num_units)
      (GRULayer_build s input_size kinit rinit binit rbinit).fused_kernel ∧
    (GRULayer_build s input_size kinit rinit binit rbinit).fused_bias.length =
      6 * s.num_units ∧
    matShape input_size (3 * s.num_units)
      (GRULayer_build s input_size kinit rinit binit rbinit).kernel ∧
    matShape s.num_units (3 * s.num_units)
      (GRULayer_build s input_size kinit rinit binit rbinit).recurrent_kernel ∧
    (GRULayer_build s input_size kinit rinit binit rbinit).bias.length =
      3 * s.num_units ∧
    (GRULayer_build s input_size kinit rinit binit rbinit).recurrent_bias.length =
      3 * s.num_units ∧
    (∀ s2 : GRULayerState, s2.built = true →
      GRULayer_build s2 input_size kinit rinit binit rbinit = s2) := by
  have h3 : s.num_units + (s.num_units + s.num_units) = 3 * s.num_units := by ring
  have hkw : matShape input_size (3 * s.num_units)
      (hcat3 (kinit 0) (kinit 1) (kinit 2)) := by
    rw [← h3]
    exact matShape_hcat (hk 0 (by omega))
      (matShape_hcat (hk 1 (by omega)) (hk 2 (by omega)))
  have hrw : matShape s.num_units (3 * s.num_units)
      (hcat3 (rinit 0) (rinit 1) (rinit 2)) := by
    rw [← h3]
    exact matShape_hcat (hr 0 (by omega))
      (matShape_hcat (hr 1 (by omega)) (hr 2 (by omega)))
  have hw : matShape (input_size + s.num_units) (3 * s.num_units)
      (hcat3 (kinit 0) (kinit 1) (kinit 2) ++ hcat3 (rinit 0) (rinit 1) (rinit 2)) :=
    matShape_vcat hkw hrw
  have hblen : (binit 0 ++ binit 1 ++ binit 2).length = 3 * s.num_units := by
    simp [hbi 0 (by omega), hbi 1 (by omega), hbi 2 (by omega)]
    ring
  have hrblen : (rbinit 0 ++ rbinit 1 ++ rbinit 2).length = 3 * s.num_units := by
    simp [hrb 0 (by omega), hrb 1 (by omega), hrb 2 (by omega)]
    ring
  have hfblen : ((binit 0 ++ binit 1 ++ binit 2) ++
      (rbinit 0 ++ rbinit 1 ++ rbinit 2)).length = 6 * s.num_units := by
    rw [List.length_append, hblen, hrblen]
    ring
  have hhalf : ((binit 0 ++ binit 1 ++ binit 2) ++
      (rbinit 0 ++ rbinit 1 ++ rbinit 2)).length / 2 = 3 * s.num_units := by
    rw [hfblen]; omega
  refine ⟨matShape_replicate _ _, by simp [IndRNN_init_recurrent_scale],
    by simp [IndRNN_init_bias], ?_, ?_, ?_, ?_, ?_, ?_, ?_⟩
  · simpa only [GRULayer_build, hs, Bool.false_eq_true, if_false] using hw
  · simpa only [GRULayer_build, hs, Bool.false_eq_true, if_false] using hfblen
  · simp only [GRULayer_build, hs, Bool.false_eq_true, if_false]
    exact matShape_take hw
  · simp only [GRULayer_build, hs, Bool.false_eq_true, if_false]
    exact matShape_drop_take hw
  · simp only [GRULayer_build, hs, Bool.false_eq_true, if_false]
    rw [hhalf, List.length_take, hfblen]
    omega
  · simp only [GRULayer_build, hs, Bool.false_eq_true, if_false]
    rw [hhalf, List.length_drop, hfblen]
    omega
  · intro s2 h2
    simp [GRULayer_build, h2]

/-- Witness for C7 with one-unit concrete initializers. -/
theorem learnable_tensor_shapes_witness :
    matShape (1 + (GRULayer_init 1 0 0).num_units) (3 * (GRULayer_init 1 0 0).num_units)
      (GRULayer_build (GRULayer_init 1 0 0) 1 (fun _ => [[0]]) (fun _ => [[0]])
        (fun _ => [0]) (fun _ => [0])).fused_kernel :=
  (learnable_tensor_shapes 1 1 (GRULayer_init 1 0 0) (fun _ => [[0]]) (fun _ => [[0]])
    (fun _ => [0]) (fun _ => [0]) (by decide) (by decide) (by decide) (by decide)
    (by decide)).2.2.2.1


theorem zoneoutMask_shape (z : ℚ) (u : Nat → Nat → Nat → ℚ) (T B N : Nat) :
    tensShape T B N (zoneoutMask z u T B N) := by
  refine ⟨by simp [zoneoutMask], fun t ht => ?_⟩
  rw [zoneoutMask, getD_map _ _ t [] 0 (by simpa using ht), getD_range _ _ _ ht]
  refine ⟨by simp, fun b hb => ?_⟩
  rw [getD_map _ _ b [] 0 (by simpa using hb), getD_range _ _ _ hb]
  simp

theorem zoneoutMask_entry (z : ℚ) (u : Nat → Nat → Nat → ℚ) (T B N t b n : Nat)
    (ht : t < T) (hb : b < B) (hn : n < N) :
    (((zoneoutMask z u T B N).getD t []).getD b []).getD n 0 =
      zoneoutEntry z (u t b n) := by
  rw [zoneoutMask, getD_map _ _ t [] 0 (by simpa using ht), getD_range _ _ _ ht,
    getD_map _ _ b [] 0 (by simpa using hb), getD_range _ _ _ hb,
    getD_map _ _ n 0 0 (by simpa using hn), getD_range _ _ _ hn]

theorem tf_dropout_entry (rate : ℚ) (u : Nat → Nat → ℚ) (m : Mat) (i j : Nat)
    (hi : i < m.length) (hj : j < (m.getD i []).length) :
    ((tf_dropout rate u m).getD i []).getD j 0 =
      if rate ≤ u i j then (m.getD i []).getD j 0 / (1 - rate) else 0 := by
  rw [tf_dropout, getD_zipWith _ _ _ i [] 0 [] (by simpa using hi) hi,
    getD_range _ _ _ hi]
  rw [getD_zipWith _ _ _ j 0 0 0 (by simpa using hj) hj, getD_range _ _ _ hj]

/-- C8: regularization in `GRULayer.__call__`: the recurrent kernel passed
to the op is `tf.nn.dropout` of `self.recurrent_kernel` at rate
`self.dropout` (each entry either zeroed or rescaled by `1/(1-rate)`); a
zoneout mask of shape `(time_steps, batch_size, num_units)` is generated
when `self.zoneout` is nonzero and the empty mask is passed otherwise; the
`training` flag and `zoneout_prob` are forwarded to the op on every call. -/
theorem gru_call_regularization (s : GRULayerState) (inputs : Tens3) (training : Bool)
    (u_zone : Nat → Nat → Nat → ℚ) (u_drop : Nat → Nat → ℚ) :
    (GRULayer_call_args s inputs training u_zone u_drop).recurrent_kernel =
      tf_dropout s.dropout u_drop s.recurrent_kernel ∧
    (∀ i j, i < s.recurrent_kernel.length → j < (s.recurrent_kernel.getD i []).length →
      (((GRULayer_call_args s inputs training u_zone u_drop).recurrent_kernel.getD i
          []).getD j 0 =
        if s.dropout ≤ u_drop i j
        then (s.recurrent_kernel.getD i []).getD j 0 / (1 - s.dropout) else 0)) ∧
    (s.zoneout ≠ 0 →
      (GRULayer_call_args s inputs training u_zone u_drop).zoneout_mask =
        zoneoutMask s.zoneout u_zone inputs.length (inputs.headD []).length
          s.num_units ∧
      tensShape inputs.length (inputs.headD []).length s.num_units
        (GRULayer_call_args s inputs training u_zone u_drop).zoneout_mask) ∧
    (s.zoneout = 0 →
      (GRULayer_call_args s inputs training u_zone u_drop).zoneout_mask = []) ∧
    (GRULayer_call_args s inputs training u_zone u_drop).training = training ∧
    (GRULayer_call_args s inputs training u_zone u_drop).zoneout_prob = s.zoneout := by
  refine ⟨rfl, ?_, ?_, ?_, rfl, rfl⟩
  · intro i j hi hj
    exact tf_dropout_entry s.dropout u_drop s.recurrent_kernel i j hi hj
  · intro hz
    constructor
    · simp [GRULayer_call_args, hz]
    · rw [GRULayer_call_args]
      simp only [hz, if_true, ne_eq, not_false_iff]
      simpa [hz] using zoneoutMask_shape s.zoneout u_zone inputs.length
        (inputs.headD []).length s.num_units
  · intro hz
    simp [GRULayer_call_args, hz]

/-- Witness for C8: a nonzero-zoneout layer produces a full-shape mask. -/
theorem gru_call_regularization_witness :
    tensShape ([[[1]]] : Tens3).length (([[[1]]] : Tens3).headD []).length
      (GRULayer_init 1 0 (1/2)).num_units
      (GRULayer_call_args (GRULayer_init 1 0 (1/2)) [[[1]]] true
        (fun _ _ _ => 0) (fun _ _ => 0)).zoneout_mask :=
  ((gru_call_regularization (GRULayer_init 1 0 (1/2)) [[[1]]] true
    (fun _ _ _ => 0) (fun _ _ => 0)).2.2.1 (by norm_num [GRULayer_init])).2

/-- C9: each zoneout mask entry `floor((1 - z) + u)` is 0 or 1, and is 1
exactly when the uniform sample `u` is at least the zoneout rate `z`. -/
theorem zoneout_mask_entries_binary (z u : ℚ) (hz0 : 0 ≤ z) (hz1 : z ≤ 1)
    (hu0 : 0 ≤ u) (hu1 : u < 1) :
    (zoneoutEntry z u = 0 ∨ zoneoutEntry z u = 1) ∧ (zoneoutEntry z u = 1 ↔ z ≤ u) := by
  rcases le_or_lt z u with hc | hc
  · have hf : ⌊(1 - z) + u⌋ = (1 : ℤ) := by
      rw [Int.floor_eq_iff]
      push_cast
      constructor <;> linarith
    have he : zoneoutEntry z u = 1 := by rw [zoneoutEntry, hf]; norm_num
    exact ⟨Or.inr he, by simp [he, hc]⟩
  · have hf : ⌊(1 - z) + u⌋ = (0 : ℤ) := by
      rw [Int.floor_eq_iff]
      push_cast
      constructor <;> linarith
    have he : zoneoutEntry z u = 0 := by rw [zoneoutEntry, hf]; norm_num
    refine ⟨Or.inl he, ?_⟩
    rw [he]
    constructor
    · intro h01
      norm_num at h01
    · intro hzu
      linarith

/-- Witness for C9 at `z = 1/2`, `u = 3/4`. -/
theorem zoneout_mask_entries_binary_witness :
    (zoneoutEntry (1/2) (3/4) = 0 ∨ zoneoutEntry (1/2) (3/4) = 1) ∧
    (zoneoutEntry (1/2) (3/4) = 1 ↔ (1/2 : ℚ) ≤ 3/4) :=
  zoneout_mask_entries_binary (1/2) (3/4) (by norm_num) (by norm_num) (by norm_num)
    (by norm_num)


theorem drop_one_getLast {α : Type} (l : List α) (d : α) (h : 2 ≤ l.length) :
    (l.drop 1).getLast? = some (l.getLastD d) := by
  match l, h with
  | a :: b :: t, _ =>
    rw [List.drop_one, List.tail_cons, List.getLastD_eq_getLast?,
      List.getLast?_cons_cons]
    cases hx : (b :: t).getLast? with
    | none => simp at hx
    | some x => simp

/-- C10 counterexample: with a zero-time-step input, `IndRNN.forward`
returns an empty output while the state is the initial state, so the state
is not the last time step of the returned output. -/
theorem output_state_slicing_counterexample :
    IndRNN_forward id true false [[1]] [1] [1] 1 [] (some [[[5]]]) none =
      Except.ok (([] : Tens3), ([[[5]]] : Tens3)) ∧
    ¬ (([] : Tens3).getLast? = some (([[[5]]] : Tens3).getD 0 [])) := by
  constructor
  · decide
  · simp

/-- C10 (amended): with `lengths`/`sequence_length` equal to `None`, the
returned output drops the first row (the initial state) of the full
stacked sequence and the returned state is the last row of the full
sequence; when there is at least one time step the state is the last time
step of the returned output. -/
theorem output_state_slicing (f : ℚ → ℚ) (training : Bool) (kernel : Mat)
    (scale bias : Vec) (hidden_size : Nat) (input : Tens3) (state : Option Tens3)
    (out st : Tens3)
    (hok : IndRNN_forward f training false kernel scale bias hidden_size input state
      none = Except.ok (out, st)) :
    (∃ h0, IndRNN_forward_h0 hidden_size input state = Except.ok h0 ∧
      out = (IndRNNScript f training input h0 kernel scale bias).drop 1 ∧
      st = [(IndRNNScript f training input h0 kernel scale bias).getLastD []] ∧
      (input ≠ [] → out.getLast? = some (st.getD 0 []))) ∧
    (∀ (batch : Nat) (result : Tens3),
      GRULayer_call_output batch result none = (result.drop 1, result.getLastD []) ∧
      (2 ≤ result.length →
        (result.drop 1).getLast? = some (result.getLastD []))) := by
  constructor
  · cases hh : IndRNN_forward_h0 hidden_size input state with
    | error e =>
      rw [IndRNN_forward] at hok
      simp [hh] at hok
    | ok h0 =>
      rw [IndRNN_forward] at hok
      simp only [Bool.false_eq_true, if_false, hh, Except.ok.injEq, Prod.mk.injEq] at hok
      obtain ⟨hout, hst⟩ := hok
      refine ⟨h0, rfl, hout.symm, hst.symm, fun hne => ?_⟩
      have hlen : 2 ≤ (IndRNNScript f training input h0 kernel scale bias).length := by
        rw [indrnn_script_eq_scanl, List.length_scanl, List.length_map]
        have hne' : input.length ≠ 0 := fun hz => hne (List.length_eq_zero.mp hz)
        omega
      rw [← hout, ← hst]
      simp only [List.getD_cons_zero]
      exact drop_one_getLast _ [] hlen
  · intro batch result
    refine ⟨rfl, fun h2 => drop_one_getLast result [] h2⟩


/-- Witness for the amended C10 at a one-time-step input. -/
theorem output_state_slicing_witness :
    (∃ h0, IndRNN_forward_h0 1 [[[1]]] none = Except.ok h0 ∧
      ([[[6]]] : Tens3) = (IndRNNScript id true [[[1]]] h0 [[2]] [3] [4]).drop 1 ∧
      ([[[6]]] : Tens3) = [(IndRNNScript id true [[[1]]] h0 [[2]] [3] [4]).getLastD []] ∧
      (([[[1]]] : Tens3) ≠ [] →
        ([[[6]]] : Tens3).getLast? = some (([[[6]]] : Tens3).getD 0 []))) ∧
    (∀ (batch : Nat) (result : Tens3),
      GRULayer_call_output batch result none = (result.drop 1, result.getLastD []) ∧
      (2 ≤ result.length →
        (result.drop 1).getLast? = some (result.getLastD []))) :=
  output_state_slicing id true [[2]] [3] [4] 1 [[[1]]] none [[[6]]] [[[6]]]
    (by norm_num [IndRNN_forward, IndRNN_forward_h0, IndRNNScript, indStep, matMul, dot,
      matAddVec, matAdd, rowMulVec, matMap, List.range_succ, List.getLastD])

end Haste
